import Mathlib

/-!
Shallow embedding of the markets.fun backend routes
(`src/routes/traders.js`, `src/routes/markets.js`, `src/routes/copyTrades.js`,
`src/routes/x402.js`) and proofs about the claims of the specification.

Modelling conventions:
- Each Express handler becomes a pure Lean function.  The results of the
  external services (Substreams, the blockchain service, the x402 service)
  and of individual Supabase queries that are mere environment inputs are
  passed in as `Except String _` values; a `.error` models a raised fault.
- Handlers whose claims concern the persistent state take an explicit
  `Store` (lists of rows) and return the updated `Store`.
- JavaScript falsiness of request-body fields is modelled field by field:
  a missing string field or the empty string is falsy, a missing number or
  `0` is falsy.
- JS numbers that only flow through the handlers are modelled as `ℚ`;
  millisecond clock readings (`Date.now()`) as `Nat` parameters; ISO date
  strings as `String` parameters.
-/

namespace MarketsFun

/-- JS falsiness for an optional string body field: `undefined` and `""`. -/
def strFalsy : Option String → Bool
  | none => true
  | some s => s == ""

/-- JS falsiness for an optional numeric body field: `undefined` and `0`. -/
def natFalsy : Option Nat → Bool
  | none => true
  | some n => n == 0

/-- JS falsiness for an optional rational body field: `undefined` and `0`. -/
def ratFalsy : Option ℚ → Bool
  | none => true
  | some q => q == 0

/-- The `.toLowerCase()` normalization of wallet addresses, written over
the character list so that it evaluates inside the kernel
(`String.mapAux`, behind `String.toLower`, does not). -/
def lowerStr (s : String) : String := ⟨s.data.map Char.toLower⟩

/-- A loosely typed JSON scalar, used where the handler inspects `typeof`. -/
inductive JsonVal where
  | jnull
  | jbool (b : Bool)
  | jnum (q : ℚ)
  | jstr (s : String)
deriving DecidableEq, Repr

/-- The check `typeof x === 'boolean'` on an optional body field. -/
def isBoolVal : Option JsonVal → Bool
  | some (.jbool _) => true
  | _ => false

/-- PostgREST `.single()`: exactly one row, otherwise an error (`none`). -/
def singleRow {α : Type} : List α → Option α
  | [x] => some x
  | _ => none

/-! ## Persistent store rows -/

/-- Row of the `users` table. -/
structure UserRow where
  id : Nat
  wallet_address : String
  is_public : Bool
deriving DecidableEq, Repr

/-- Row of the `traders` table (profile belonging to a user). -/
structure TraderProfileRow where
  id : Nat
  user_id : Nat
  categories : List String
  updated_at : String
deriving DecidableEq, Repr

/-- Row of the `copy_trades` table. -/
structure CopyTradeRow where
  id : Nat
  follower_id : Nat
  trader_id : Nat
  amount : ℚ
  categories : List String
  max_trades : Option Nat
  active : Bool
  created_at : String
  updated_at : Option String
  executed_trades : Option Nat
deriving DecidableEq, Repr

/-- Row of the `x402_agents` table. -/
structure AgentRow where
  id : Nat
  user_id : Nat
  trader_id : Nat
  agent_address : String
  max_per_trade : ℚ
  total_limit : ℚ
  categories : List String
  active : Bool
  tx_hash : String
  created_at : String
  authorized_amount : Option ℚ
deriving DecidableEq, Repr

/-- The persistent store, as the lists of rows the handlers touch. -/
structure Store where
  users : List UserRow
  traders : List TraderProfileRow
  copyTrades : List CopyTradeRow
  agents : List AgentRow
deriving DecidableEq, Repr

/-- Supabase `select('id').eq('wallet_address', addr).single()` on `users`. -/
def lookupUser (users : List UserRow) (addr : String) : Option UserRow :=
  singleRow (users.filter (fun u => u.wallet_address == addr))

/-! ## traders.js : GET /leaderboard -/

/-- Shape of a leaderboard entry as sent to the client. -/
structure TraderView where
  address : String
  winRate : ℚ
  totalTrades : Nat
  profitLoss : ℚ
  totalVolume : ℚ
  categories : List String
  lastActive : String
deriving DecidableEq, Repr

/-- A joined row from the cached `traders`/`users` leaderboard query. -/
structure LeaderboardDbRow where
  wallet_address : String
  win_rate : ℚ
  total_trades : Nat
  profit_loss : ℚ
  total_volume : ℚ
  categories : Option (List String)
  last_active : String
deriving DecidableEq, Repr

/-- The hard-coded `mockTraders` array of the leaderboard handler; the
`lastActive` timestamps are `new Date().toISOString()`, passed as `now`. -/
def mockTraders (now : String) : List TraderView :=
  [ { address := "0x1234567890123456789012345678901234567890",
      winRate := 78.5, totalTrades := 45, profitLoss := 1250.75,
      totalVolume := 5000, categories := ["sports", "politics"],
      lastActive := now },
    { address := "0x0987654321098765432109876543210987654321",
      winRate := 65.2, totalTrades := 32, profitLoss := 890.25,
      totalVolume := 3200, categories := ["finance", "sports"],
      lastActive := now },
    { address := "0x1111111111111111111111111111111111111111",
      winRate := 82.1, totalTrades := 28, profitLoss := 1580.50,
      totalVolume := 4100, categories := ["politics"],
      lastActive := now } ]

/-- Body of the leaderboard JSON response (always HTTP 200). -/
structure LeaderboardResp where
  traders : List TraderView
  source : String
deriving DecidableEq, Repr

/-- GET /api/traders/leaderboard.  `substreams` is the result of
`substreamsService.getTraderLeaderboard`, `dbRows` the result of the cached
Supabase query (already filtered/ordered/limited by the store).  A fault of
the Supabase fallback is re-thrown and caught by the outer handler, which
answers with the mock data. -/
def getLeaderboard (now : String)
    (substreams : Except String (List TraderView))
    (dbRows : Except String (List LeaderboardDbRow)) : LeaderboardResp :=
  let inner : Except String (List TraderView) :=
    match substreams with
    | .ok ts => .ok ts
    | .error _ =>
      match dbRows with
      | .error e => .error e
      | .ok rows => .ok (rows.map fun r =>
          { address := r.wallet_address
            winRate := r.win_rate
            totalTrades := r.total_trades
            profitLoss := r.profit_loss
            totalVolume := r.total_volume
            categories := r.categories.getD []
            lastActive := r.last_active })
  match inner with
  | .ok traders =>
    { traders := traders
      source := if traders.length > 0 then "substreams" else "cache" }
  | .error _ =>
    { traders := mockTraders now, source := "mock" }

/-! ## traders.js : POST /register -/

/-- Body of POST /api/traders/register; `isPublic` defaults to `true` and
`categories` to `[]` in the destructuring. -/
structure RegisterBody where
  walletAddress : Option String
  isPublic : Option Bool
  categories : Option (List String)
deriving Repr

/-- Modelled from the spec: the Supabase client and the schema of the
`users` table are not under src/; per the glossary ("Upsert:
insert-or-update keyed by a unique field (wallet address)") the upsert
updates the row whose `wallet_address` equals `addr` when one exists and
inserts a fresh row (id `freshId`) otherwise.  `isPublic = none` models an
upsert payload without the `is_public` column, which leaves the stored flag
unchanged on update; the column default for an insert is not in src/ and is
taken to be `false` (no claim depends on it).  Returns the resulting row
(`select().single()`) and the updated table. -/
def upsertUserRow (users : List UserRow) (addr : String)
    (isPublic : Option Bool) (freshId : Nat) : UserRow × List UserRow :=
  match users.find? (fun u => u.wallet_address == addr) with
  | some u =>
    ({ u with is_public := isPublic.getD u.is_public },
     users.map (fun v =>
       if v.wallet_address == addr
       then { v with is_public := isPublic.getD v.is_public } else v))
  | none =>
    let u : UserRow :=
      { id := freshId, wallet_address := addr, is_public := isPublic.getD false }
    (u, users ++ [u])

/-- Modelled from the spec: the `traders` table schema is not under src/;
the trader-profile upsert is keyed by `user_id` (the profile "belongs to
one User" and is "created via upsert on first reference"). -/
def upsertTraderRow (traders : List TraderProfileRow) (userId : Nat)
    (cats : List String) (now : String) (freshId : Nat) :
    TraderProfileRow × List TraderProfileRow :=
  match traders.find? (fun t => t.user_id == userId) with
  | some t =>
    ({ t with categories := cats, updated_at := now },
     traders.map (fun v =>
       if v.user_id == userId
       then { v with categories := cats, updated_at := now } else v))
  | none =>
    let t : TraderProfileRow :=
      { id := freshId, user_id := userId, categories := cats, updated_at := now }
    (t, traders ++ [t])

/-- Outcome of POST /api/traders/register. -/
inductive RegisterResult where
  | badRequest
  | dbError
  | ok (traderId : Nat) (address : String) (isPublic : Bool)
       (categories : List String)
deriving DecidableEq, Repr

/-- POST /api/traders/register.  `userFault`/`traderFault` inject Supabase
upsert faults (`some msg` answers 500 before/after the respective write). -/
def registerTrader (s : Store) (body : RegisterBody)
    (userFault traderFault : Option String)
    (freshUserId freshTraderId : Nat) (now : String) :
    RegisterResult × Store :=
  if strFalsy body.walletAddress then (.badRequest, s)
  else
    match userFault with
    | some _ => (.dbError, s)
    | none =>
      let wa := lowerStr (body.walletAddress.getD "")
      let pub := body.isPublic.getD true
      let cats := body.categories.getD []
      let ur := upsertUserRow s.users wa (some pub) freshUserId
      match traderFault with
      | some _ => (.dbError, { s with users := ur.2 })
      | none =>
        let tr := upsertTraderRow s.traders ur.1.id cats now freshTraderId
        (.ok tr.1.id wa pub cats,
         { s with users := ur.2, traders := tr.2 })

/-! ## markets.js : GET /active -/

/-- Shape of a market entry as sent to the client; live and cached rows are
passed through the handler unmodified, so one shape serves all tiers. -/
structure MarketView where
  id : Nat
  question : String
  category : String
  endTime : String
  totalYes : String
  totalNo : String
  resolved : Bool
  created_at : String
deriving DecidableEq, Repr

/-- The hard-coded demo markets of GET /api/markets/active; the computed
timestamps (now, now + 1 hour, now + 1 day, now + 7 days as ISO strings)
are passed in. -/
def demoMarkets (now in1h in1d in7d : String) : List MarketView :=
  [ { id := 0, question := "Will Lakers win their next game?",
      category := "sports", endTime := in1h, totalYes := "150.5",
      totalNo := "89.2", resolved := false, created_at := now },
    { id := 1, question := "Will Bitcoin hit $100k by end of month?",
      category := "finance", endTime := in7d, totalYes := "89.7",
      totalNo := "110.3", resolved := false, created_at := now },
    { id := 2, question := "Will it rain tomorrow in New York?",
      category := "weather", endTime := in1d, totalYes := "45.2",
      totalNo := "67.8", resolved := false, created_at := now } ]

/-- Outcome of GET /api/markets/active. -/
inductive ActiveMarketsResult where
  | ok (markets : List MarketView) (source : String)
  | serverError (msg : String)
deriving DecidableEq, Repr

/-- GET /api/markets/active.  `blockchain` is the result of
`blockchainService.getActiveMarkets()`, `dbRows` the result of the cached
Supabase query (already filtered/ordered/limited by the store); a store
fault is re-thrown into the outer catch, which answers 500. -/
def getActiveMarkets (now in1h in1d in7d : String)
    (blockchain : Except String (List MarketView))
    (dbRows : Except String (List MarketView)) : ActiveMarketsResult :=
  let fetched : Except String (List MarketView) :=
    match blockchain with
    | .ok ms => .ok ms
    | .error _ => dbRows
  match fetched with
  | .error _ => .serverError "Failed to fetch active markets"
  | .ok ms =>
    let markets := if ms.isEmpty then demoMarkets now in1h in1d in7d else ms
    .ok markets (if markets.length > 0 then "blockchain" else "demo")

/-! ## markets.js : POST /create -/

/-- Body of POST /api/markets/create. -/
structure CreateMarketBody where
  walletAddress : Option String
  question : Option String
  category : Option String
  duration : Option Nat
deriving Repr

/-- Row of the `markets` table as returned by the insert. -/
structure MarketRowDb where
  id : Nat
  question : String
  category : String
  creator_id : Nat
  end_time : Nat
  total_yes : String
  total_no : String
  resolved : Bool
deriving DecidableEq, Repr

/-- The `market` field of the creation response: either the inserted row or
the locally fabricated object used when the insert failed.  `endTimeMs` is
the millisecond epoch behind `endTime.toISOString()`. -/
inductive MarketOut where
  | stored (row : MarketRowDb)
  | fallback (id : Nat) (question category : String) (endTimeMs : Nat)
             (totalYes totalNo : String) (resolved : Bool)
deriving DecidableEq, Repr

/-- Outcome of POST /api/markets/create. -/
inductive CreateMarketResult where
  | badRequest
  | dbError
  | blockchainError
  | ok (marketId : Nat) (market : MarketOut)
deriving DecidableEq, Repr

/-- POST /api/markets/create.  `userUpsert` is the result of the `users`
upsert, `chainCreate` of `blockchainService.createMarket`, `dbInsert` of
the `markets` insert; a failed insert is only logged ("this is OK for
demo") and the response is built from the request instead. -/
def createMarket (body : CreateMarketBody) (nowMs : Nat)
    (userUpsert : Except String UserRow)
    (chainCreate : Except String Nat)
    (dbInsert : Except String MarketRowDb) : CreateMarketResult :=
  if strFalsy body.walletAddress || strFalsy body.question ||
     strFalsy body.category || natFalsy body.duration then .badRequest
  else
    match userUpsert with
    | .error _ => .dbError
    | .ok _ =>
      match chainCreate with
      | .error _ => .blockchainError
      | .ok marketId =>
        let endTimeMs := nowMs + (body.duration.getD 0) * 1000
        match dbInsert with
        | .ok row => .ok marketId (.stored row)
        | .error _ =>
          .ok marketId (.fallback marketId (body.question.getD "")
            (body.category.getD "") endTimeMs "0" "0" false)

/-! ## markets.js : POST /:id/bet -/

/-- Body of POST /api/markets/:id/bet; `prediction` is inspected with
`typeof`, so it is kept as a raw JSON value. -/
structure BetBody where
  walletAddress : Option String
  prediction : Option JsonVal
  amount : Option String
deriving Repr

/-- Row of the `trades` table as returned by the insert. -/
structure TradeRowDb where
  id : Nat
  user_id : Nat
  market_id : Nat
  prediction : Bool
  amount : String
  tx_hash : String
deriving DecidableEq, Repr

/-- The `trade` field of the bet response: the inserted row, or the
fabricated object (with `id := Date.now()`) used when the insert failed. -/
inductive TradeOut where
  | stored (row : TradeRowDb)
  | fallback (idMs : Nat) (userId marketId : Nat) (prediction : Bool)
             (amount : String)
deriving DecidableEq, Repr

/-- External calls a bet-placement request performs, in order. -/
inductive BetEffect where
  | upsertUser (addr : String)
  | chainPlaceBet (marketId : Nat) (prediction : Bool) (amount : String)
  | insertTrade (userId marketId : Nat) (prediction : Bool)
                (amount txHash : String)
deriving DecidableEq, Repr

/-- Outcome of POST /api/markets/:id/bet. -/
inductive BetResult where
  | badRequest
  | dbError
  | blockchainError
  | ok (txHash : String) (trade : TradeOut)
deriving DecidableEq, Repr

/-- POST /api/markets/:id/bet.  Returns the response together with the
trace of store/chain calls the handler issued, so that "rejected before
any external call" is a statement about the trace. -/
def placeBet (idParam : Nat) (body : BetBody) (nowMs : Nat)
    (userUpsert : Except String UserRow)
    (chainBet : Except String String)
    (dbInsert : Except String TradeRowDb) : BetResult × List BetEffect :=
  if strFalsy body.walletAddress || !(isBoolVal body.prediction) ||
     strFalsy body.amount then (.badRequest, [])
  else
    let wa := lowerStr (body.walletAddress.getD "")
    let pred := match body.prediction with
      | some (.jbool b) => b
      | _ => false
    let amt := body.amount.getD ""
    match userUpsert with
    | .error _ => (.dbError, [.upsertUser wa])
    | .ok user =>
      match chainBet with
      | .error _ =>
        (.blockchainError, [.upsertUser wa, .chainPlaceBet idParam pred amt])
      | .ok tx =>
        let effs : List BetEffect :=
          [.upsertUser wa, .chainPlaceBet idParam pred amt,
           .insertTrade user.id idParam pred amt tx]
        match dbInsert with
        | .ok row => (.ok tx (.stored row), effs)
        | .error _ => (.ok tx (.fallback nowMs user.id idParam pred amt), effs)

/-! ## copyTrades.js : GET /user/:address -/

/-- A copy-trade relationship as formatted for the client. -/
structure FormattedCopyTrade where
  id : Nat
  traderAddress : Option String
  followerAddress : Option String
  amount : ℚ
  categories : List String
  maxTrades : Option Nat
  active : Bool
  createdAt : String
  executedTrades : Nat
deriving DecidableEq, Repr

/-- Outcome of GET /api/copy-trades/user/:address. -/
inductive GetCopyTradesResult where
  | ok (copyTrades : List FormattedCopyTrade)
  | serverError
deriving DecidableEq, Repr

/-- Join of a user id back to a wallet address, as the
`users!follower_id(wallet_address)` select embedding. -/
def walletOf (users : List UserRow) (uid : Nat) : Option String :=
  (users.find? (fun u => u.id == uid)).map (fun u => u.wallet_address)

/-- GET /api/copy-trades/user/:address.  The handler first builds a legacy
query object it never executes (dead code, omitted).  The user lookup
ignores the Supabase error and only checks `!user`, answering `{copyTrades:
[]}`; `fetchFault` injects a fault of the final copy-trades query. -/
def getUserCopyTrades (s : Store) (address : String) (reqType : Option String)
    (fetchFault : Option String) : GetCopyTradesResult :=
  match lookupUser s.users (lowerStr address) with
  | none => .ok []
  | some user =>
    match fetchFault with
    | some _ => .serverError
    | none =>
      let rows :=
        if reqType == some "followers"
        then s.copyTrades.filter (fun ct =>
          ct.trader_id == user.id && ct.active)
        else s.copyTrades.filter (fun ct =>
          ct.follower_id == user.id && ct.active)
      .ok (rows.map fun ct =>
        { id := ct.id
          traderAddress := walletOf s.users ct.trader_id
          followerAddress := walletOf s.users ct.follower_id
          amount := ct.amount
          categories := ct.categories
          maxTrades := ct.max_trades
          active := ct.active
          createdAt := ct.created_at
          executedTrades := ct.executed_trades.getD 0 })

/-! ## copyTrades.js : PUT /:id -/

/-- Body of PUT /api/copy-trades/:id; each optional field is applied only
when it is present (`!== undefined`), and `maxTrades` may be set to null
(`Option (Option Nat)` distinguishes absent from null). -/
structure PutCopyTradeBody where
  walletAddress : Option String
  amount : Option ℚ
  categories : Option (List String)
  maxTrades : Option (Option Nat)
  active : Option Bool
deriving Repr

/-- The copyTrade object of the PUT response. -/
structure PutRespView where
  id : Nat
  amount : ℚ
  categories : List String
  maxTrades : Option Nat
  active : Bool
  updatedAt : Option String
deriving DecidableEq, Repr

/-- Outcome of PUT /api/copy-trades/:id.  `userNotFound` and `notFound`
are both HTTP 404; `updateError` is the 500 of a failed update readback. -/
inductive PutCopyTradeResult where
  | badRequest
  | userNotFound
  | notFound
  | updateError
  | ok (view : PutRespView)
deriving DecidableEq, Repr

/-- The field-by-field update object built by the PUT handler. -/
def applyPutUpdates (body : PutCopyTradeBody) (now : String)
    (ct : CopyTradeRow) : CopyTradeRow :=
  { ct with
    amount := body.amount.getD ct.amount
    categories := body.categories.getD ct.categories
    max_trades := body.maxTrades.getD ct.max_trades
    active := body.active.getD ct.active
    updated_at := some now }

/-- PUT /api/copy-trades/:id.  Ownership is enforced by the joint filter
`eq(id).eq(follower_id)` with `.single()`; the update itself then filters
on `id` alone and its `.select().single()` readback must return exactly
one row. -/
def putCopyTrade (s : Store) (idParam : Nat) (body : PutCopyTradeBody)
    (now : String) : PutCopyTradeResult × Store :=
  if strFalsy body.walletAddress then (.badRequest, s)
  else
    match lookupUser s.users (lowerStr (body.walletAddress.getD "")) with
    | none => (.userNotFound, s)
    | some user =>
      match singleRow (s.copyTrades.filter (fun ct =>
          ct.id == idParam && ct.follower_id == user.id)) with
      | none => (.notFound, s)
      | some _ =>
        let newCts := s.copyTrades.map (fun ct =>
          if ct.id == idParam then applyPutUpdates body now ct else ct)
        let s2 := { s with copyTrades := newCts }
        match singleRow (newCts.filter (fun ct => ct.id == idParam)) with
        | some u =>
          (.ok { id := u.id, amount := u.amount, categories := u.categories,
                 maxTrades := u.max_trades, active := u.active,
                 updatedAt := u.updated_at }, s2)
        | none => (.updateError, s2)

/-! ## copyTrades.js : DELETE /:id -/

/-- Outcome of DELETE /api/copy-trades/:id. -/
inductive DeleteCopyTradeResult where
  | badRequest
  | userNotFound
  | notFound
  | ok (copyTradeId : Nat)
deriving DecidableEq, Repr

/-- DELETE /api/copy-trades/:id.  The deactivation is a single update
filtered by `id` and `follower_id`; it runs against the store before the
`.select().single()` readback decides the response, so the rows are
updated even when the readback does not yield exactly one row. -/
def deleteCopyTrade (s : Store) (idParam : Nat) (walletAddress : String)
    (now : String) : DeleteCopyTradeResult × Store :=
  if walletAddress == "" then (.badRequest, s)
  else
    match lookupUser s.users (lowerStr walletAddress) with
    | none => (.userNotFound, s)
    | some user =>
      let hit := fun (ct : CopyTradeRow) =>
        ct.id == idParam && ct.follower_id == user.id
      let newCts := s.copyTrades.map (fun ct =>
        if hit ct then { ct with active := false, updated_at := some now }
        else ct)
      let s2 := { s with copyTrades := newCts }
      match singleRow (newCts.filter hit) with
      | some u => (.ok u.id, s2)
      | none => (.notFound, s2)

/-! ## x402.js : POST /agent/create -/

/-- Body of POST /api/x402/agent/create; the numeric limits are falsy when
absent or zero. -/
structure AgentCreateBody where
  followerAddress : Option String
  traderAddress : Option String
  maxPerTrade : Option ℚ
  totalLimit : Option ℚ
  categories : Option (List String)
deriving Repr

/-- Result of `x402Service.createCopyTradingAgent`. -/
structure X402AgentResult where
  agentAddress : String
  txHash : String
deriving DecidableEq, Repr

/-- The agent object of the creation response; a real agent carries
`demo := false` (the JSON object simply lacks the `demo` key), the
fabricated one carries `demo := true`. -/
structure AgentRespView where
  id : Nat
  agentAddress : String
  traderAddress : String
  followerAddress : String
  maxPerTrade : ℚ
  totalLimit : ℚ
  categories : List String
  active : Bool
  txHash : String
  demo : Bool
deriving DecidableEq, Repr

/-- Outcome of POST /api/x402/agent/create. -/
inductive AgentCreateResult where
  | badRequest
  | dbError
  | ok (agent : AgentRespView) (message : String)
deriving DecidableEq, Repr

/-- POST /api/x402/agent/create.  `randAddr`/`randTx` are the
`Math.random()` hex strings of the demo branch; `x402Create` is the x402
provisioning call; `dbInsert` the `x402_agents` insert, whose failure is
only logged ("OK for demo") — the response id then falls back to
`Date.now()` (also when the inserted id is `0`, by JS falsiness of
`agentRecord?.id || Date.now()`). -/
def createAgent (body : AgentCreateBody) (nowMs : Nat)
    (randAddr randTx : String)
    (followerUpsert traderUpsert : Except String UserRow)
    (x402Create : Except String X402AgentResult)
    (dbInsert : Except String AgentRow) : AgentCreateResult :=
  if strFalsy body.followerAddress || strFalsy body.traderAddress ||
     ratFalsy body.maxPerTrade || ratFalsy body.totalLimit then .badRequest
  else
    let fa := body.followerAddress.getD ""
    let ta := body.traderAddress.getD ""
    let cats := body.categories.getD []
    match followerUpsert, traderUpsert with
    | .error _, _ => .dbError
    | _, .error _ => .dbError
    | .ok _, .ok _ =>
      match x402Create with
      | .ok r =>
        let idOut := match dbInsert with
          | .ok rec => if rec.id == 0 then nowMs else rec.id
          | .error _ => nowMs
        .ok { id := idOut, agentAddress := r.agentAddress,
              traderAddress := ta, followerAddress := fa,
              maxPerTrade := body.maxPerTrade.getD 0,
              totalLimit := body.totalLimit.getD 0,
              categories := cats, active := true, txHash := r.txHash,
              demo := false }
           "x402 copy trading agent created successfully"
      | .error _ =>
        .ok { id := nowMs, agentAddress := randAddr, traderAddress := ta,
              followerAddress := fa, maxPerTrade := body.maxPerTrade.getD 0,
              totalLimit := body.totalLimit.getD 0, categories := cats,
              active := true, txHash := randTx, demo := true }
           "Demo agent created (x402 service unavailable)"

/-! ## x402.js : GET /agents/:walletAddress -/

/-- Per-agent status as reported by `x402Service.getAgentStatus`. -/
structure AgentStatus where
  active : Bool
  balance : String
  executedTrades : Nat
deriving DecidableEq, Repr

/-- An agent as formatted for the client. -/
structure AgentView where
  id : Nat
  agentAddress : String
  traderAddress : Option String
  maxPerTrade : ℚ
  totalLimit : ℚ
  categories : List String
  active : Bool
  balance : String
  executedTrades : Nat
  createdAt : String
  txHash : String
deriving DecidableEq, Repr

/-- Outcome of GET /api/x402/agents/:walletAddress. -/
inductive GetAgentsResult where
  | ok (agents : List AgentView)
  | serverError
deriving DecidableEq, Repr

/-- GET /api/x402/agents/:walletAddress.  An unknown wallet answers
`{agents: []}`; otherwise the rows of the user are listed (newest first by
`created_at`) and decorated, per agent, with the x402 status, falling back
to the stored flags when the status call faults. -/
def getAgents (s : Store) (walletAddress : String)
    (fetchFault : Option String)
    (statusOf : String → Except String AgentStatus) : GetAgentsResult :=
  match lookupUser s.users (lowerStr walletAddress) with
  | none => .ok []
  | some user =>
    match fetchFault with
    | some _ => .serverError
    | none =>
      let rows := (s.agents.filter (fun a => a.user_id == user.id)).mergeSort
        (fun a b => decide (b.created_at ≤ a.created_at))
      .ok (rows.map fun a =>
        let st := match statusOf a.agent_address with
          | .ok st => st
          | .error _ =>
            { active := a.active, balance := "0", executedTrades := 0 }
        { id := a.id, agentAddress := a.agent_address,
          traderAddress := walletOf s.users a.trader_id,
          maxPerTrade := a.max_per_trade, totalLimit := a.total_limit,
          categories := a.categories, active := st.active,
          balance := st.balance, executedTrades := st.executedTrades,
          createdAt := a.created_at, txHash := a.tx_hash })

/-! ## x402.js : POST /webhook/execution -/

/-- The `executionData` object of an execution webhook. -/
structure ExecData where
  marketId : Nat
  originalAmount : String
  copiedAmount : String
  prediction : Bool
  txHash : String
  timestamp : String
deriving DecidableEq, Repr

/-- Body of POST /api/x402/webhook/execution. -/
structure WebhookBody where
  agentAddress : Option String
  executionData : Option ExecData
deriving Repr

/-- Outcome of POST /api/x402/webhook/execution. -/
inductive WebhookResult where
  | badRequest
  | agentNotFound
  | ok (message : String) (agentAddress : String)
deriving DecidableEq, Repr

/-- POST /api/x402/webhook/execution.  The agent is looked up by its
(case-sensitive) `agent_address` with `.single()`; `insertRes` is the
`agent_executions` insert, whose failure is only logged before the 200
response is sent. -/
def webhookExecution (agents : List AgentRow) (body : WebhookBody)
    (insertRes : Except String Unit) : WebhookResult :=
  if strFalsy body.agentAddress || body.executionData.isNone then .badRequest
  else
    let addr := body.agentAddress.getD ""
    match singleRow (agents.filter (fun a => a.agent_address == addr)) with
    | none => .agentNotFound
    | some _ =>
      match insertRes with
      | .ok _ => .ok "Execution recorded successfully" addr
      | .error _ => .ok "Execution recorded successfully" addr

/-! ## Helper lemmas -/

theorem strFalsy_some_false {s : String} (h : s ≠ "") :
    strFalsy (some s) = false := by
  show (s == "") = false
  exact beq_eq_false_iff_ne.mpr h

theorem singleRow_nil {α : Type} : singleRow ([] : List α) = none := rfl

theorem singleRow_single {α : Type} (x : α) : singleRow [x] = some x := rfl

theorem singleRow_cons2 {α : Type} (x y : α) (t : List α) :
    singleRow (x :: y :: t) = none := rfl

/-- After an upsert that sets `is_public := b`, the `users` table holds
exactly one row for `addr`, carrying `b`, provided it held at most one
before (wallet addresses are unique identifiers). -/
theorem upsertUserRow_filter (users : List UserRow) (addr : String)
    (b : Bool) (fid : Nat)
    (h : (users.filter (fun u => u.wallet_address == addr)).length ≤ 1) :
    ∃ i, (upsertUserRow users addr (some b) fid).2.filter
        (fun u => u.wallet_address == addr) =
      [{ id := i, wallet_address := addr, is_public := b }] := by
  cases hfind : users.find? (fun u => u.wallet_address == addr) with
  | none =>
    have hnil : users.filter (fun u => u.wallet_address == addr) = [] := by
      rw [List.filter_eq_nil_iff]
      exact List.find?_eq_none.mp hfind
    refine ⟨fid, ?_⟩
    simp [upsertUserRow, hfind, List.filter_append, hnil]
  | some u =>
    have hmemu : u ∈ users := List.mem_of_find?_eq_some hfind
    have hpu0 := List.find?_some hfind
    have hpu : (u.wallet_address == addr) = true := hpu0
    set g := fun v : UserRow =>
      if v.wallet_address == addr then { v with is_public := b } else v with hg
    have hgw : ∀ v, (g v).wallet_address = v.wallet_address := by
      intro v; rw [hg]
      by_cases hc : (v.wallet_address == addr) = true
      · simp [hc]
      · simp [hc]
    have hcomp : ((fun v : UserRow => v.wallet_address == addr) ∘ g) =
        (fun v : UserRow => v.wallet_address == addr) := by
      funext v
      simp [Function.comp, hgw v]
    have hmemf : u ∈ users.filter (fun v => v.wallet_address == addr) :=
      List.mem_filter.mpr ⟨hmemu, hpu⟩
    have hne : users.filter (fun v => v.wallet_address == addr) ≠ [] := by
      intro hnil; rw [hnil] at hmemf; exact absurd hmemf (by simp)
    obtain ⟨w, hw⟩ :
        ∃ w, users.filter (fun v => v.wallet_address == addr) = [w] := by
      cases hfl : users.filter (fun v => v.wallet_address == addr) with
      | nil => exact absurd hfl hne
      | cons a t =>
        rw [hfl] at h
        simp only [List.length_cons] at h
        have ht0 : t.length = 0 := by omega
        have ht : t = [] := List.length_eq_zero.mp ht0
        exact ⟨a, by rw [ht]⟩
    have hwaddr : (w.wallet_address == addr) = true := by
      have hwmem : w ∈ users.filter (fun v => v.wallet_address == addr) := by
        rw [hw]; exact List.mem_cons_self w []
      exact (List.mem_filter.mp hwmem).2
    have hgoal : (users.map g).filter (fun v => v.wallet_address == addr) =
        [{ id := w.id, wallet_address := addr, is_public := b }] := by
      rw [List.filter_map, hcomp, hw]
      simp only [List.map_cons, List.map_nil]
      rw [hg]
      simp only [hwaddr, if_true]
      have hwa2 : w.wallet_address = addr := beq_iff_eq.mp hwaddr
      rw [hwa2]
    refine ⟨w.id, ?_⟩
    simp only [upsertUserRow, hfind, Option.getD_some]
    exact hgoal

/-- A successful registration only changes the `users` table through the
wallet-keyed upsert. -/
theorem registerTrader_users (s : Store) (wa : String) (b : Bool)
    (c : Option (List String)) (fu ft : Nat) (now : String) (hwa : wa ≠ "") :
    ((registerTrader s ⟨some wa, some b, c⟩ none none fu ft now).2).users =
      (upsertUserRow s.users (lowerStr wa) (some b) fu).2 := by
  simp [registerTrader, strFalsy_some_false hwa]

/-- Whenever GET /api/markets/active answers 200, the markets list is
non-empty and the source tag is "blockchain": the demo substitution runs
before the length test, so the "demo" branch of the tag is unreachable. -/
theorem getActiveMarkets_ok {now a b c : String}
    {bl db : Except String (List MarketView)}
    {ms : List MarketView} {src : String}
    (h : getActiveMarkets now a b c bl db = .ok ms src) :
    ms ≠ [] ∧ src = "blockchain" := by
  have key : ∀ L : List MarketView,
      ActiveMarketsResult.ok
        (if L.isEmpty then demoMarkets now a b c else L)
        (if (if L.isEmpty then demoMarkets now a b c else L).length > 0
         then "blockchain" else "demo") = .ok ms src →
      ms ≠ [] ∧ src = "blockchain" := by
    intro L hL
    have hne : (if L.isEmpty then demoMarkets now a b c else L) ≠ [] := by
      by_cases hemp : L.isEmpty
      · rw [if_pos hemp]; simp [demoMarkets]
      · rw [if_neg hemp]
        intro hnil
        exact hemp (by rw [hnil]; rfl)
    have hpos : (if L.isEmpty then demoMarkets now a b c else L).length > 0 :=
      List.length_pos.mpr hne
    rw [if_pos hpos] at hL
    simp only [ActiveMarketsResult.ok.injEq] at hL
    refine ⟨?_, hL.2.symm⟩
    rw [← hL.1]; exact hne
  rcases bl with e | l
  · rcases db with e2 | l2
    · exact absurd h (by simp [getActiveMarkets])
    · exact key l2 (by simpa [getActiveMarkets] using h)
  · exact key l (by simpa [getActiveMarkets] using h)

/-! ## Claims -/

/-- C1, counterexample: with the live substreams source faulting and the
store successfully returning an empty trader set, the leaderboard response
is NOT the fixed 3-entry mock list tagged "mock". -/
theorem claim_C1_counterexample :
    ¬ (getLeaderboard "2025-01-01T00:00:00.000Z"
        (Except.error "substreams unavailable") (Except.ok []) =
      { traders := mockTraders "2025-01-01T00:00:00.000Z",
        source := "mock" }) := by decide

/-- C1, amended: for a GET /api/traders/leaderboard request in which the
live substreams source raises a fault and the persistent store
successfully returns an empty trader set, the response body is the empty
traders list with source "cache"; the fixed 3-entry mock list with source
"mock" is returned when the store query also raises a fault. -/
theorem claim_C1_amended (now e e2 : String) :
    getLeaderboard now (.error e) (.ok []) =
      { traders := [], source := "cache" } ∧
    getLeaderboard now (.error e) (.error e2) =
      { traders := mockTraders now, source := "mock" } :=
  ⟨rfl, rfl⟩

/-- C2: with the live blockchain source faulting and the store returning
an empty market set, the response body is exactly the fixed 3-entry demo
list, but its source field is "blockchain", not "demo" as the claim
states: the handler substitutes the demo list before computing the length
test that selects the tag, so no response of this handler can ever carry
source "demo". -/
theorem claim_C2_code_behavior (now in1h in1d in7d e : String) :
    getActiveMarkets now in1h in1d in7d (.error e) (.ok []) =
      .ok (demoMarkets now in1h in1d in7d) "blockchain" ∧
    ∀ (bl db : Except String (List MarketView)) (ms : List MarketView),
      getActiveMarkets now in1h in1d in7d bl db ≠ .ok ms "demo" := by
  constructor
  · rfl
  · intro bl db ms hcontra
    have hsrc := (getActiveMarkets_ok hcontra).2
    exact absurd hsrc (by decide)

/-- C3: for market creation, bet placement and agent creation, when the
external write succeeds and the subsequent local persistence step fails,
the handler still answers with the success response carrying the external
result (the marketId, the txHash, the x402 agent data); the persistence
failure leaves no other trace in the response. -/
theorem claim_C3 :
    (∀ (wa q c : String) (d nowMs : Nat) (u : UserRow) (mid : Nat)
        (e : String),
      wa ≠ "" → q ≠ "" → c ≠ "" → d ≠ 0 →
      createMarket ⟨some wa, some q, some c, some d⟩ nowMs (.ok u) (.ok mid)
          (.error e) =
        .ok mid (.fallback mid q c (nowMs + d * 1000) "0" "0" false)) ∧
    (∀ (idp : Nat) (wa : String) (p : Bool) (amt : String) (nowMs : Nat)
        (u : UserRow) (tx e : String),
      wa ≠ "" → amt ≠ "" →
      placeBet idp ⟨some wa, some (.jbool p), some amt⟩ nowMs (.ok u)
          (.ok tx) (.error e) =
        (.ok tx (.fallback nowMs u.id idp p amt),
         [.upsertUser (lowerStr wa), .chainPlaceBet idp p amt,
          .insertTrade u.id idp p amt tx])) ∧
    (∀ (fa ta : String) (mpt tl : ℚ) (cats : Option (List String))
        (nowMs : Nat) (ra rt : String) (uf ut : UserRow)
        (r : X402AgentResult) (e : String),
      fa ≠ "" → ta ≠ "" → mpt ≠ 0 → tl ≠ 0 →
      createAgent ⟨some fa, some ta, some mpt, some tl, cats⟩ nowMs ra rt
          (.ok uf) (.ok ut) (.ok r) (.error e) =
        .ok { id := nowMs, agentAddress := r.agentAddress,
              traderAddress := ta, followerAddress := fa,
              maxPerTrade := mpt, totalLimit := tl,
              categories := cats.getD [], active := true,
              txHash := r.txHash, demo := false }
          "x402 copy trading agent created successfully") := by
  refine ⟨?_, ?_, ?_⟩
  · intro wa q c d nowMs u mid e hwa hq hc hd
    simp [createMarket, strFalsy_some_false hwa, strFalsy_some_false hq,
      strFalsy_some_false hc, natFalsy, hd]
  · intro idp wa p amt nowMs u tx e hwa hamt
    simp [placeBet, strFalsy_some_false hwa, strFalsy_some_false hamt,
      isBoolVal]
  · intro fa ta mpt tl cats nowMs ra rt uf ut r e hfa hta hm ht
    simp [createAgent, strFalsy_some_false hfa, strFalsy_some_false hta,
      ratFalsy, hm, ht]

/-- C3 witness: concrete instances of the three handlers. -/
theorem claim_C3_witness :
    createMarket ⟨some "0xAb", some "Q?", some "sports", some 60⟩ 1000
        (.ok ⟨7, "0xab", true⟩) (.ok 5) (.error "db down") =
      .ok 5 (.fallback 5 "Q?" "sports" (1000 + 60 * 1000) "0" "0" false) ∧
    placeBet 3 ⟨some "0xAb", some (.jbool true), some "10"⟩ 999
        (.ok ⟨7, "0xab", true⟩) (.ok "0xTX") (.error "db down") =
      (.ok "0xTX" (.fallback 999 7 3 true "10"),
       [.upsertUser (lowerStr "0xAb"), .chainPlaceBet 3 true "10",
        .insertTrade 7 3 true "10" "0xTX"]) ∧
    createAgent ⟨some "0xF", some "0xT", some 5, some 50, none⟩ 111 "rA" "rT"
        (.ok ⟨1, "0xf", true⟩) (.ok ⟨2, "0xt", true⟩)
        (.ok ⟨"0xAGENT", "0xHASH"⟩) (.error "db down") =
      .ok ⟨111, "0xAGENT", "0xT", "0xF", 5, 50, [], true, "0xHASH", false⟩
        "x402 copy trading agent created successfully" :=
  ⟨claim_C3.1 "0xAb" "Q?" "sports" 60 1000 ⟨7, "0xab", true⟩ 5 "db down"
      (by decide) (by decide) (by decide) (by decide),
   claim_C3.2.1 3 "0xAb" true "10" 999 ⟨7, "0xab", true⟩ "0xTX" "db down"
      (by decide) (by decide),
   claim_C3.2.2 "0xF" "0xT" 5 50 none 111 "rA" "rT" ⟨1, "0xf", true⟩
      ⟨2, "0xt", true⟩ ⟨"0xAGENT", "0xHASH"⟩ "db down"
      (by decide) (by decide) (by decide) (by decide)⟩

/-- C4: a PUT /api/copy-trades/:id request whose wallet address resolves
to a user who is not the follower of the copy-trade row with that id is
answered 404 and the store is left entirely unchanged. -/
theorem claim_C4 (s : Store) (idp : Nat) (body : PutCopyTradeBody)
    (now : String) (u : UserRow)
    (hwa : strFalsy body.walletAddress = false)
    (hu : lookupUser s.users (lowerStr (body.walletAddress.getD "")) = some u)
    (hnotOwner : ∀ ct ∈ s.copyTrades, ct.id = idp → ct.follower_id ≠ u.id) :
    putCopyTrade s idp body now = (.notFound, s) := by
  have hfil : s.copyTrades.filter
      (fun ct => ct.id == idp && ct.follower_id == u.id) = [] := by
    rw [List.filter_eq_nil_iff]
    intro ct hct
    simp only [Bool.and_eq_true, beq_iff_eq, not_and]
    intro hid
    exact hnotOwner ct hct hid
  simp only [putCopyTrade, hwa, Bool.false_eq_true, if_false, hu, hfil]
  rfl

/-- C4 witness: user 1 attempts to update copy-trade 10, which is owned by
user 2; the response is 404 and the store is unchanged. -/
theorem claim_C4_witness :
    putCopyTrade
        ⟨[⟨1, "0xaaa", true⟩, ⟨2, "0xbbb", true⟩], [],
         [⟨10, 2, 1, 5, [], none, true, "T", none, none⟩], []⟩
        10 ⟨some "0xAAA", some 9, none, none, some false⟩ "N" =
      (.notFound,
       ⟨[⟨1, "0xaaa", true⟩, ⟨2, "0xbbb", true⟩], [],
        [⟨10, 2, 1, 5, [], none, true, "T", none, none⟩], []⟩) :=
  claim_C4 _ 10 _ "N" ⟨1, "0xaaa", true⟩ (by decide) (by decide) (by decide)

/-- C5: a bet request whose prediction field is not a boolean is answered
400 and the handler performs no store or blockchain call at all (the
effect trace is empty), whatever the other fields and the environment. -/
theorem claim_C5 (idp : Nat) (body : BetBody) (nowMs : Nat)
    (uu : Except String UserRow) (cb : Except String String)
    (di : Except String TradeRowDb)
    (h : isBoolVal body.prediction = false) :
    placeBet idp body nowMs uu cb di = (.badRequest, []) := by
  simp [placeBet, h]

/-- C5 witness: a bet with the string "yes" as prediction is rejected with
no effect. -/
theorem claim_C5_witness :
    placeBet 3 ⟨some "0xAb", some (.jstr "yes"), some "10"⟩ 99
        (.ok ⟨1, "0xab", true⟩) (.ok "0xTX") (.error "db") =
      (.badRequest, []) :=
  claim_C5 3 _ 99 _ _ _ (by decide)

/-- C6: after a successful DELETE /api/copy-trades/:id, the store holds
the row with that id with `active = false`, and a subsequent GET
/api/copy-trades/user/:address?type=following for the same wallet no
longer lists any entry with that id. -/
theorem claim_C6 (s : Store) (idp j : Nat) (wa now : String)
    (ff : Option String)
    (h : (deleteCopyTrade s idp wa now).1 = .ok j) :
    (∃ ct ∈ (deleteCopyTrade s idp wa now).2.copyTrades,
        ct.id = idp ∧ ct.active = false) ∧
    (∀ l, getUserCopyTrades (deleteCopyTrade s idp wa now).2 wa none ff =
        .ok l → ∀ v ∈ l, v.id ≠ idp) := by
  cases hwa : wa == "" with
  | true => exfalso; simp [deleteCopyTrade, hwa] at h
  | false =>
  cases hu : lookupUser s.users (lowerStr wa) with
  | none => exfalso; simp [deleteCopyTrade, hwa, hu] at h
  | some user =>
  simp only [deleteCopyTrade, hwa, Bool.false_eq_true, if_false, hu] at h ⊢
  set f := fun ct : CopyTradeRow =>
    if ct.id == idp && ct.follower_id == user.id
    then { ct with active := false, updated_at := some now } else ct with hf
  set newCts := s.copyTrades.map f with hnew
  cases hs : singleRow (newCts.filter
      (fun ct => ct.id == idp && ct.follower_id == user.id)) with
  | none => rw [hs] at h; simp at h
  | some u0 =>
  dsimp only at h ⊢
  have hid : ∀ ct, (f ct).id = ct.id := by
    intro ct; rw [hf]
    by_cases hc : (ct.id == idp && ct.follower_id == user.id) = true
    · simp [hc]
    · simp [hc]
  have hfol : ∀ ct, (f ct).follower_id = ct.follower_id := by
    intro ct; rw [hf]
    by_cases hc : (ct.id == idp && ct.follower_id == user.id) = true
    · simp [hc]
    · simp [hc]
  have hact : ∀ ct, ct.id = idp → ct.follower_id = user.id →
      (f ct).active = false := by
    intro ct h1 h2; rw [hf]
    have hc : (ct.id == idp && ct.follower_id == user.id) = true := by
      simp [h1, h2]
    simp [hc]
  constructor
  · have hu0 : u0 ∈ newCts.filter
        (fun ct => ct.id == idp && ct.follower_id == user.id) := by
      cases hfl : newCts.filter
          (fun ct => ct.id == idp && ct.follower_id == user.id) with
      | nil =>
        rw [hfl] at hs; simp [singleRow_nil] at hs
      | cons a t =>
        cases t with
        | nil =>
          rw [hfl] at hs
          rw [singleRow_single] at hs
          simp only [Option.some.injEq] at hs
          rw [hs]
          exact List.mem_cons_self u0 []
        | cons b t2 =>
          rw [hfl] at hs; simp [singleRow_cons2] at hs
    have hmem := (List.mem_filter.mp hu0).1
    have hpred := (List.mem_filter.mp hu0).2
    simp only [Bool.and_eq_true, beq_iff_eq] at hpred
    refine ⟨u0, hmem, hpred.1, ?_⟩
    rw [hnew] at hmem
    rcases List.mem_map.mp hmem with ⟨ct1, hct1, hfc⟩
    have h1 : ct1.id = idp := by rw [← hpred.1, ← hfc, hid]
    have h2 : ct1.follower_id = user.id := by rw [← hpred.2, ← hfc, hfol]
    rw [← hfc]; exact hact ct1 h1 h2
  · intro l hl v hv
    simp only [getUserCopyTrades] at hl
    rw [hu] at hl
    cases ff with
    | some e => exact absurd hl (by simp)
    | none =>
    simp only [GetCopyTradesResult.ok.injEq] at hl
    rw [← hl] at hv
    simp only [List.mem_map] at hv
    rcases hv with ⟨ct, hctmem, hfmt⟩
    have hctp := (List.mem_filter.mp hctmem).2
    have hctin := (List.mem_filter.mp hctmem).1
    simp only [Bool.and_eq_true, beq_iff_eq] at hctp
    intro hvid
    have hcid : ct.id = idp := by
      have hvct : v.id = ct.id := by rw [← hfmt]
      rw [← hvct, hvid]
    rw [hnew] at hctin
    rcases List.mem_map.mp hctin with ⟨ct1, hct1, hfc⟩
    have h1 : ct1.id = idp := by rw [← hcid, ← hfc, hid]
    have h2 : ct1.follower_id = user.id := by rw [← hctp.1, ← hfc, hfol]
    have hfa : (f ct1).active = false := hact ct1 h1 h2
    rw [hfc] at hfa
    rw [hfa] at hctp
    exact absurd hctp.2 (by simp)

/-- C6 witness: owner 0xaaa deletes copy-trade 10; the row is deactivated
and the following listing excludes it. -/
theorem claim_C6_witness :
    (∃ ct ∈ (deleteCopyTrade
        ⟨[⟨1, "0xaaa", true⟩], [],
         [⟨10, 1, 2, 5, [], none, true, "T", none, none⟩], []⟩
        10 "0xAAA" "N").2.copyTrades, ct.id = 10 ∧ ct.active = false) ∧
    (∀ l, getUserCopyTrades (deleteCopyTrade
        ⟨[⟨1, "0xaaa", true⟩], [],
         [⟨10, 1, 2, 5, [], none, true, "T", none, none⟩], []⟩
        10 "0xAAA" "N").2 "0xAAA" none none = .ok l →
      ∀ v ∈ l, v.id ≠ 10) :=
  claim_C6 ⟨[⟨1, "0xaaa", true⟩], [],
    [⟨10, 1, 2, 5, [], none, true, "T", none, none⟩], []⟩
    10 10 "0xAAA" "N" none (by decide)

/-- C7: registering the same wallet twice with different isPublic values
leaves exactly one user row for the lowercased address, carrying the
second value, given the uniqueness invariant on wallet addresses. -/
theorem claim_C7 (s : Store) (wa : String) (b1 b2 : Bool)
    (c1 c2 : Option (List String)) (f1 f2 g1 g2 : Nat) (now1 now2 : String)
    (hwa : wa ≠ "")
    (huniq : (s.users.filter
      (fun u => u.wallet_address == lowerStr wa)).length ≤ 1) :
    ∃ i, ((registerTrader
          ((registerTrader s ⟨some wa, some b1, c1⟩ none none f1 g1 now1).2)
          ⟨some wa, some b2, c2⟩ none none f2 g2 now2).2).users.filter
        (fun u => u.wallet_address == lowerStr wa) =
      [{ id := i, wallet_address := lowerStr wa, is_public := b2 }] := by
  obtain ⟨i1, hi1⟩ := upsertUserRow_filter s.users (lowerStr wa) b1 f1 huniq
  have hlen1 : (((upsertUserRow s.users (lowerStr wa) (some b1) f1).2).filter
      (fun u => u.wallet_address == lowerStr wa)).length ≤ 1 := by
    rw [hi1]; simp
  obtain ⟨i2, hi2⟩ := upsertUserRow_filter
    ((upsertUserRow s.users (lowerStr wa) (some b1) f1).2) (lowerStr wa) b2 f2 hlen1
  refine ⟨i2, ?_⟩
  rw [registerTrader_users _ _ b2 c2 f2 g2 now2 hwa,
      registerTrader_users _ _ b1 c1 f1 g1 now1 hwa]
  exact hi2

/-- C7 witness: registering 0xAB twice, first private then public, on an
empty store. -/
theorem claim_C7_witness :
    ∃ i, ((registerTrader
          ((registerTrader ⟨[], [], [], []⟩ ⟨some "0xAB", some false, none⟩
            none none 1 3 "t1").2)
          ⟨some "0xAB", some true, none⟩ none none 2 4 "t2").2).users.filter
        (fun u => u.wallet_address == lowerStr "0xAB") =
      [{ id := i, wallet_address := lowerStr "0xAB", is_public := true }] :=
  claim_C7 ⟨[], [], [], []⟩ "0xAB" false true none none 1 2 3 4 "t1" "t2"
    (by decide) (by decide)

/-- C8: when the wallet address of GET /api/copy-trades/user/:address or
GET /api/x402/agents/:walletAddress resolves to no user, both handlers
answer 200 with an empty collection, never 404. -/
theorem claim_C8 (s : Store) (addr : String) (ty ff1 ff2 : Option String)
    (stf : String → Except String AgentStatus)
    (h : lookupUser s.users (lowerStr addr) = none) :
    getUserCopyTrades s addr ty ff1 = .ok [] ∧
    getAgents s addr ff2 stf = .ok [] := by
  constructor
  · simp [getUserCopyTrades, h]
  · simp [getAgents, h]

/-- C8 witness: an unknown wallet on an empty store. -/
theorem claim_C8_witness :
    getUserCopyTrades ⟨[], [], [], []⟩ "0xZZ" none none = .ok [] ∧
    getAgents ⟨[], [], [], []⟩ "0xZZ" none
      (fun _ => .error "status unavailable") = .ok [] :=
  claim_C8 ⟨[], [], [], []⟩ "0xZZ" none none none
    (fun _ => .error "status unavailable") (by decide)

/-- C9: every 200 response of GET /api/markets/active carries a non-empty
markets array: when both tiers are empty or missing, the demo list is
substituted before the response is built. -/
theorem claim_C9 (now in1h in1d in7d : String)
    (bl db : Except String (List MarketView)) (ms : List MarketView)
    (src : String)
    (h : getActiveMarkets now in1h in1d in7d bl db = .ok ms src) :
    ms ≠ [] :=
  (getActiveMarkets_ok h).1

/-- C9 witness: the double-empty case yields the demo list, which is
non-empty. -/
theorem claim_C9_witness : demoMarkets "n" "h" "d" "w" ≠ [] :=
  claim_C9 "n" "h" "d" "w" (.error "down") (.ok [])
    (demoMarkets "n" "h" "d" "w") "blockchain" rfl

/-- C10: an execution webhook whose agentAddress matches a known agent is
answered 200 with message "Execution recorded successfully" whatever the
outcome of the execution insert; an insert failure is only logged. -/
theorem claim_C10 (agents : List AgentRow) (addr : String) (d : ExecData)
    (ag : AgentRow) (ins : Except String Unit)
    (haddr : addr ≠ "")
    (hfind : singleRow (agents.filter
      (fun a => a.agent_address == addr)) = some ag) :
    webhookExecution agents ⟨some addr, some d⟩ ins =
      .ok "Execution recorded successfully" addr := by
  cases ins with
  | ok u => simp [webhookExecution, strFalsy_some_false haddr, hfind]
  | error e => simp [webhookExecution, strFalsy_some_false haddr, hfind]

/-- C10 witness: a known agent with a failing execution insert. -/
theorem claim_C10_witness :
    webhookExecution [⟨5, 1, 2, "0xAG", 10, 100, [], true, "0xTX", "T", none⟩]
        ⟨some "0xAG", some ⟨0, "1", "2", true, "0xh", "ts"⟩⟩
        (.error "insert failed") =
      .ok "Execution recorded successfully" "0xAG" :=
  claim_C10 [⟨5, 1, 2, "0xAG", 10, 100, [], true, "0xTX", "T", none⟩]
    "0xAG" ⟨0, "1", "2", true, "0xh", "ts"⟩
    ⟨5, 1, 2, "0xAG", 10, 100, [], true, "0xTX", "T", none⟩
    (.error "insert failed") (by decide) (by decide)

end MarketsFun
